import Mathlib

/-!
Verification of the `HessianFree` optimizer (`hessianfree/optimizer.py`)
against its natural-language specification.

Scalars are modelled as rationals; parameter vectors in the trainable
subspace as functions `Fin n → ℚ`.  The one place where IEEE-754
non-finite values are behaviourally relevant (the reduction-ratio
division in `_adapt_damping`, whose operands are torch tensors, so a
zero denominator yields `±inf`/`nan` rather than an exception) is
modelled by the explicit `FloatVal` type below.
-/

open Matrix

/-! ## Damping controller (`HessianFree._adapt_damping`) -/

/-- Result of a float division as torch computes it: a zero denominator
produces `nan` (when the numerator is also zero) or a signed infinity,
never an exception. -/
inductive FloatVal : Type where
  | val : ℚ → FloatVal
  | posInf : FloatVal
  | negInf : FloatVal
  | nan : FloatVal
deriving DecidableEq

/-- IEEE-style division used for the reduction ratio `rho`: finite
quotient when the denominator is nonzero, otherwise `nan` or a signed
infinity depending on the sign of the numerator. -/
def fdiv (num den : ℚ) : FloatVal :=
  if den = 0 then
    if num = 0 then FloatVal.nan
    else if 0 < num then FloatVal.posInf
    else FloatVal.negInf
  else FloatVal.val (num / den)

/-- IEEE-style comparison `v < c` for a possibly non-finite `v` against a
finite constant `c`; `nan` compares false. -/
def fltQ : FloatVal → ℚ → Bool
  | FloatVal.val q, c => decide (q < c)
  | FloatVal.posInf, _ => false
  | FloatVal.negInf, _ => true
  | FloatVal.nan, _ => false

/-- IEEE-style comparison `v > c`; `nan` compares false. -/
def fgtQ : FloatVal → ℚ → Bool
  | FloatVal.val q, c => decide (c < q)
  | FloatVal.posInf, _ => true
  | FloatVal.negInf, _ => false
  | FloatVal.nan, _ => false

/-- `HessianFree._adapt_damping` (optimizer.py lines 273-313): computes
`rho = (f_step - f_0) / (m_step - m_0)`, multiplies the damping by `3/2`
when `rho < 0.25`, by `2/3` when `rho > 0.75`, leaves it unchanged
otherwise, and reports a (non-fatal) warning exactly when `rho < 0`.
Returns the new damping together with the warning flag.  The function is
total: no input raises. -/
def adaptDamping (damping f_0 f_step m_0 m_step : ℚ) : ℚ × Bool :=
  let rho := fdiv (f_step - f_0) (m_step - m_0)
  let newDamping :=
    if fltQ rho (1/4) then damping * (3/2)
    else if fgtQ rho (3/4) then damping * (2/3)
    else damping
  (newDamping, fltQ rho 0)

/-! ## Constructor validation (`HessianFree.__init__`) -/

/-- The constructor arguments of `HessianFree.__init__`
(optimizer.py lines 20-32). -/
structure HFConfig where
  curvature_opt : String
  damping : ℚ
  adapt_damping : Bool
  cg_max_iter : Option ℤ
  cg_decay_x0 : ℚ
  use_cg_backtracking : Bool
  lr : ℚ
  use_linesearch : Bool
deriving DecidableEq

/-- The default argument values of `HessianFree.__init__`
(optimizer.py lines 20-32): in particular `cg_max_iter = 250` and
`lr = 1.0`. -/
def hfDefaults : HFConfig :=
  { curvature_opt := "ggn"
    damping := 1
    adapt_damping := true
    cg_max_iter := some 250
    cg_decay_x0 := 19/20
    use_cg_backtracking := true
    lr := 1
    use_linesearch := true }

/-- The warning issued when `damping == 0.0` while adaptation was
requested (optimizer.py line 59). -/
def dampingZeroWarning : String :=
  "The damping is set to 0.0 and will not get adapted."

/-- The warning issued on a negative reduction ratio
(optimizer.py lines 310-313). -/
def negRhoWarning : String :=
  "The reduction ratio rho is negative."

/-- The check `cg_max_iter is not None and cg_max_iter < 1`
(optimizer.py line 62). -/
def cgCapInvalid : Option ℤ → Bool
  | none => false
  | some k => decide (k < 1)

/-- Persistent optimizer state read and written by `HessianFree.step`:
the warm start `x0` (in `self.state`), the damping and learning rate (in
`self._group`), the adaptation flag possibly forced off at construction,
and the remaining static configuration. -/
structure HFState (n : ℕ) where
  x0 : Option (Fin n → ℚ)
  damping : ℚ
  adapt_damping : Bool
  cg_decay_x0 : ℚ
  use_cg_backtracking : Bool
  lr : ℚ
  use_linesearch : Bool
  warnMsgs : List String

/-- Discriminates `Except.ok` from `Except.error`. -/
def exceptIsOk {ε α : Type} : Except ε α → Bool
  | Except.ok _ => true
  | Except.error _ => false

/-- `HessianFree.__init__` (optimizer.py lines 20-92), with the checks in
source order: curvature option, negative damping, the forced disabling of
adaptation (with warning) when `damping == 0.0`, the `cg_max_iter` check,
the learning-rate check (`lr < 0.0` only), and finally the
single-parameter-group check performed after the parent constructor.
`numParamGroups` is the length of `self.param_groups`. -/
def hfInit (n : ℕ) (cfg : HFConfig) (numParamGroups : ℕ) :
    Except String (HFState n) :=
  if cfg.curvature_opt ≠ "hessian" ∧ cfg.curvature_opt ≠ "ggn" then
    Except.error "Invalid curvature_opt"
  else if cfg.damping < 0 then
    Except.error "Invalid damping"
  else if cgCapInvalid cfg.cg_max_iter then
    Except.error "Invalid cg_max_iter"
  else if cfg.lr < 0 then
    Except.error "Invalid learning rate"
  else if numParamGroups ≠ 1 then
    Except.error "HessianFree does not support per-parameter options"
  else
    Except.ok
      { x0 := none
        damping := cfg.damping
        adapt_damping :=
          if cfg.damping = 0 ∧ cfg.adapt_damping then false
          else cfg.adapt_damping
        cg_decay_x0 := cfg.cg_decay_x0
        use_cg_backtracking := cfg.use_cg_backtracking
        lr := cfg.lr
        use_linesearch := cfg.use_linesearch
        warnMsgs :=
          if cfg.damping = 0 ∧ cfg.adapt_damping then [dampingZeroWarning]
          else [] }

/-! ## CG iteration cap -/

/-- Modelled from the spec: the handling of `max_iter = None` lives in
`hessianfree/cg.py`, which is not under src/; per the docstring of
`HessianFree.__init__` (optimizer.py lines 36-39) and spec section 4.1, a
`None` cap is replaced by the dimension of the linear system, while an
explicit cap is used as given. -/
def effectiveCgMaxIter (cap : Option ℤ) (dim : ℤ) : ℤ :=
  cap.getD dim

/-! ## Spec-modelled step components missing from src/ -/

/-- Modelled from the spec: `cg_efficient_backtracking` in
`hessianfree/cg_backtracking.py` is not under src/.  Spec section 4.2:
return the index of the checkpoint whose iterate yields the lowest
objective value (first minimum).  Helper carrying the running best. -/
def argminAux : List ℚ → ℕ → ℕ → ℚ → ℕ
  | [], _, bestIdx, _ => bestIdx
  | v :: rest, i, bestIdx, bestVal =>
    if v < bestVal then argminAux rest (i + 1) i v
    else argminAux rest (i + 1) bestIdx bestVal

/-- Modelled from the spec: index of the smallest value in a list
(0 on the empty list, matching a trajectory of length 1 returning
index 0 per spec section 4.2). -/
def argminIdx : List ℚ → ℕ
  | [] => 0
  | v :: rest => argminAux rest 1 0 v

/-- Bound on line-search backtracking attempts (spec section 4.4 requires
some fixed bound; the exact constant is internal to
`hessianfree/linesearch.py`, which is not under src/). -/
def lsMaxAttempts : ℕ := 20

/-- Modelled from the spec: `simple_linesearch` in
`hessianfree/linesearch.py` is not under src/.  Spec section 4.4:
geometric backtracking from the initial multiplier, accepting the first
`alpha` with `f (alpha • step) ≤ f 0 + c * alpha * (grad ⬝ᵥ step)`, with
a well-defined fallback once the attempt budget is exhausted.  Returns
the accepted multiplier together with the list of evaluation points
passed to `f` (each such evaluation writes the model parameters via
`tfunc`). -/
def lsSearch {n : ℕ} (f : (Fin n → ℚ) → ℚ) (f0 c gs : ℚ)
    (stepv : Fin n → ℚ) : ℕ → ℚ → ℚ × List (Fin n → ℚ)
  | 0, alpha => (alpha, [])
  | fuel + 1, alpha =>
    if f (alpha • stepv) ≤ f0 + c * alpha * gs then (alpha, [alpha • stepv])
    else
      let r := lsSearch f f0 c gs stepv fuel (alpha / 2)
      (r.1, (alpha • stepv) :: r.2)

/-! ## Step orchestrator (`HessianFree.step`) -/

/-- Everything observable about one `HessianFree.step` call: the updated
persistent state, the initial guess handed to the cg run of this step, the
ordered list of values written to the trainable parameters of the model (each
`vector_to_trainparams` call, i.e. every `tfunc` evaluation and the final
commit), the chosen step direction and multiplier, the parameter value
left in the model when the step returns, and whether the damping
controller ran. -/
structure StepResult (n : ℕ) where
  state : HFState n
  cgX0Arg : Option (Fin n → ℚ)
  writes : List (Fin n → ℚ)
  chosenStep : Fin n → ℚ
  lrUsed : ℚ
  finalParams : Fin n → ℚ
  dampingControllerRan : Bool

/-- `HessianFree.step` (optimizer.py lines 94-257) as a pure state
transformer.  `cgFun` abstracts the call to `cg` (optimizer.py lines
170-179), already closed over the damped matrix-vector product and the
right-hand side `-grad`; the orchestrator passes it the current damping
and the persisted warm start and receives `(x_iters, m_iters)`.  `loss`
is the objective as a function of the trainable-parameter vector, so a
`tfunc step` evaluation writes `params_vec + step` and reads
`loss (params_vec + step)` (optimizer.py lines 192-195).  Phases in
source order: cg, warm-start persistence (line 183), damping adaptation
(lines 200-207), cg backtracking (lines 212-218), line search (lines
225-239), and the final parameter update (lines 248-249).  Backtracking
and line search internals are modelled from the spec (sections 4.2 and
4.4) since their modules are not under src/. -/
def hfStep {n : ℕ}
    (cgFun : ℚ → Option (Fin n → ℚ) → List (Fin n → ℚ) × List ℚ)
    (loss : (Fin n → ℚ) → ℚ) (grad params_vec : Fin n → ℚ)
    (s : HFState n) : StepResult n :=
  let damping := s.damping
  let cgRes := cgFun damping s.x0
  let x_iters := cgRes.1
  let m_iters := cgRes.2
  let step_vec := x_iters.getLastD 0
  let new_x0 := s.cg_decay_x0 • x_iters.getLastD 0
  let x_first := x_iters.headD 0
  let dampingOut :=
    if s.adapt_damping then
      adaptDamping damping (loss (params_vec + x_first))
        (loss (params_vec + step_vec)) (m_iters.headD 0) (m_iters.getLastD 0)
    else (damping, false)
  let adaptWrites :=
    if s.adapt_damping then [params_vec + x_first, params_vec + step_vec]
    else []
  let btOut :=
    if s.use_cg_backtracking then
      (x_iters.getD (argminIdx (x_iters.map (fun x => loss (params_vec + x)))) 0,
       x_iters.map (fun x => params_vec + x))
    else (step_vec, ([] : List (Fin n → ℚ)))
  let step_vec2 := btOut.1
  let lsOut :=
    if s.use_linesearch then
      let trials :=
        lsSearch (fun v => loss (params_vec + v)) (loss (params_vec + 0))
          (1/10000) (grad ⬝ᵥ step_vec2) step_vec2 lsMaxAttempts s.lr
      (trials.1, (params_vec + 0) :: trials.2.map (fun v => params_vec + v))
    else (s.lr, ([] : List (Fin n → ℚ)))
  let final_params := params_vec + lsOut.1 • step_vec2
  { state :=
      { s with
        x0 := some new_x0
        damping := dampingOut.1
        warnMsgs := s.warnMsgs ++ (if dampingOut.2 then [negRhoWarning] else []) }
    cgX0Arg := s.x0
    writes := adaptWrites ++ btOut.2 ++ lsOut.2 ++ [final_params]
    chosenStep := step_vec2
    lrUsed := lsOut.1
    finalParams := final_params
    dampingControllerRan := s.adapt_damping }

/-! ## `HessianFree.get_preconditioner` -/

/-- `HessianFree.get_preconditioner` (optimizer.py lines 325-349): calls
`diag_EF_preconditioner` with the current damping of the optimizer but
contains no return statement, so the constructed preconditioner is
discarded and the Python method returns `None`. -/
def get_preconditioner {α β : Type} (diag_EF_preconditioner : β → ℚ → α)
    (inputsArgs : β) (damping : ℚ) : Option α :=
  let _ := diag_EF_preconditioner inputsArgs damping
  none

/-! ## Preconditioned conjugate-gradient solver

Modelled from the spec: `cg` lives in `hessianfree/cg.py`, which is not
under src/.  Spec section 4.1: standard preconditioned CG on `A x = b`
minimizing `q x = x ⬝ᵥ A.mulVec x / 2 - b ⬝ᵥ x`, with the quadratic-model
value updated incrementally each iteration from the step length and the
residual products already computed for the linear-algebra update (no
extra product with `A`), checkpoints recorded on a grid that always
contains entry 0 (the initial guess) and the final iterate, and early
termination on numerical breakdown (a vanishing inner product) returning
the trajectory collected so far.  Tolerance-based and Martens
early-stopping rules only truncate the trajectory and are irrelevant to
the checkpoint invariant, so they are folded into the iteration bound
here. -/

/-- One CG iterate: current solution `x`, residual `r = b - A x`, search
direction `p`, and incrementally maintained quadratic-model value `m`. -/
structure CGState (n : ℕ) where
  x : Fin n → ℚ
  r : Fin n → ℚ
  p : Fin n → ℚ
  m : ℚ

/-- The quadratic model minimized by CG on the (damped) system
`(A, b)`. -/
def qval {n : ℕ} (A : Matrix (Fin n) (Fin n) ℚ) (b x : Fin n → ℚ) : ℚ :=
  x ⬝ᵥ A.mulVec x / 2 - b ⬝ᵥ x

/-- Modelled from the spec: CG initialization.  The initial model value
is computed from the product `A.mulVec x0` that the residual needs
anyway. -/
def cgInit {n : ℕ} (A : Matrix (Fin n) (Fin n) ℚ) (b : Fin n → ℚ)
    (M : (Fin n → ℚ) → Fin n → ℚ) (x0 : Fin n → ℚ) : CGState n :=
  { x := x0
    r := b - A.mulVec x0
    p := M (b - A.mulVec x0)
    m := x0 ⬝ᵥ A.mulVec x0 / 2 - b ⬝ᵥ x0 }

/-- The CG step length `alpha = (r ⬝ᵥ M r) / (p ⬝ᵥ A p)`. -/
def cgAlpha {n : ℕ} (A : Matrix (Fin n) (Fin n) ℚ)
    (M : (Fin n → ℚ) → Fin n → ℚ) (s : CGState n) : ℚ :=
  (s.r ⬝ᵥ M s.r) / (s.p ⬝ᵥ A.mulVec s.p)

/-- Modelled from the spec: one preconditioned CG update.  The model
value is updated incrementally as `m - alpha * (r ⬝ᵥ M r) / 2`, using no
product with `A` beyond the `A.mulVec p` already needed for the residual
update. -/
def cgNext {n : ℕ} (A : Matrix (Fin n) (Fin n) ℚ)
    (M : (Fin n → ℚ) → Fin n → ℚ) (s : CGState n) : CGState n :=
  { x := s.x + cgAlpha A M s • s.p
    r := s.r - cgAlpha A M s • A.mulVec s.p
    p := M (s.r - cgAlpha A M s • A.mulVec s.p) +
      ((s.r - cgAlpha A M s • A.mulVec s.p) ⬝ᵥ
          M (s.r - cgAlpha A M s • A.mulVec s.p) / (s.r ⬝ᵥ M s.r)) • s.p
    m := s.m - cgAlpha A M s * (s.r ⬝ᵥ M s.r) / 2 }

/-- Modelled from the spec: guarded CG step.  Terminates (returns `none`)
on an exactly converged residual or on numerical breakdown (a vanishing
inner product that would otherwise be divided by), per spec section 4.1
termination rules 1 and 4. -/
def cgStepGuard {n : ℕ} (A : Matrix (Fin n) (Fin n) ℚ)
    (M : (Fin n → ℚ) → Fin n → ℚ) (s : CGState n) : Option (CGState n) :=
  if s.r = 0 then none
  else if s.r ⬝ᵥ M s.r = 0 then none
  else if s.p ⬝ᵥ A.mulVec s.p = 0 then none
  else some (cgNext A M s)

/-- Modelled from the spec: run CG for at most `fuel` iterations,
collecting every iterate reached (the trajectory before grid
selection). -/
def cgRun {n : ℕ} (A : Matrix (Fin n) (Fin n) ℚ)
    (M : (Fin n → ℚ) → Fin n → ℚ) : ℕ → CGState n → List (CGState n)
  | 0, s => [s]
  | fuel + 1, s =>
    match cgStepGuard A M s with
    | none => [s]
    | some s' => s :: cgRun A M fuel s'

/-- The list of CG states visited, starting from the initial guess
(`x0.getD 0`, the zero vector when absent) with the preconditioner
defaulting to the identity. -/
def cgStates {n : ℕ} (A : Matrix (Fin n) (Fin n) ℚ) (b : Fin n → ℚ)
    (x0 : Option (Fin n → ℚ)) (M : Option ((Fin n → ℚ) → Fin n → ℚ))
    (maxIter : ℕ) : List (CGState n) :=
  cgRun A (M.getD id) maxIter (cgInit A b (M.getD id) (x0.getD 0))

/-- Whether checkpoint index `i` is kept: always index 0 and the final
index; with an explicit grid additionally its members, and with the
automatic grid (`none`) every index (the automatic spacing is an internal
heuristic per spec section 9; keeping everything is its finest
instance). -/
def gridKeep (grid : Option (List ℕ)) (total i : ℕ) : Bool :=
  match grid with
  | none => true
  | some gs => i == 0 || gs.contains i || i + 1 == total

/-- Keeps the elements of a list whose position satisfies `keep`,
counting positions from `i`. -/
def gridFilter {α : Type} (keep : ℕ → Bool) : ℕ → List α → List α
  | _, [] => []
  | i, a :: rest =>
    if keep i then a :: gridFilter keep (i + 1) rest
    else gridFilter keep (i + 1) rest

/-- Modelled from the spec: the checkpointed trajectory returned by `cg`,
a list of `(iterate, modelValue)` pairs selected from the visited states
by the checkpoint grid. -/
def cgTrajectory {n : ℕ} (A : Matrix (Fin n) (Fin n) ℚ) (b : Fin n → ℚ)
    (x0 : Option (Fin n → ℚ)) (M : Option ((Fin n → ℚ) → Fin n → ℚ))
    (maxIter : ℕ) (grid : Option (List ℕ)) : List ((Fin n → ℚ) × ℚ) :=
  gridFilter
    (gridKeep grid ((cgStates A b x0 M maxIter).map (fun s => (s.x, s.m))).length)
    0 ((cgStates A b x0 M maxIter).map (fun s => (s.x, s.m)))

/-- The per-state CG invariant: the residual tracks `b - A x`, the model
value tracks the quadratic `qval`, and the search direction satisfies
`p ⬝ᵥ r = M r ⬝ᵥ r`. -/
def CGInv {n : ℕ} (A : Matrix (Fin n) (Fin n) ℚ) (b : Fin n → ℚ)
    (M : (Fin n → ℚ) → Fin n → ℚ) (s : CGState n) : Prop :=
  s.r = b - A.mulVec s.x ∧ s.m = qval A b s.x ∧ s.p ⬝ᵥ s.r = M s.r ⬝ᵥ s.r

/-! ## Concrete instances used by counterexamples and witnesses -/

/-- The all-ones vector in dimension 1. -/
def exOne : Fin 1 → ℚ := fun _ => 1

/-- A concrete stand-in for the cg call: a two-entry trajectory ending at
`exOne` with model values `0` and `-1`. -/
def exCgFun : ℚ → Option (Fin 1 → ℚ) → List (Fin 1 → ℚ) × List ℚ :=
  fun _ _ => ([fun _ => 0, exOne], [0, -1])

/-- A concrete objective: the single coordinate itself. -/
def exLoss : (Fin 1 → ℚ) → ℚ := fun v => v 0

/-- A concrete optimizer state with damping adaptation enabled and
backtracking and line search disabled. -/
def exState : HFState 1 :=
  { x0 := none
    damping := 1
    adapt_damping := true
    cg_decay_x0 := 1
    use_cg_backtracking := false
    lr := 1
    use_linesearch := false
    warnMsgs := [] }

/-- The constructor defaults with learning rate zero. -/
def cfgLrZero : HFConfig := { hfDefaults with lr := 0 }

/-- The constructor defaults with damping zero (adaptation still
requested by default). -/
def cfgDampZero : HFConfig := { hfDefaults with damping := 0 }

/-- A concrete symmetric 2x2 system matrix for the CG witness. -/
def exMatA : Matrix (Fin 2) (Fin 2) ℚ := !![2, 1; 1, 3]

/-- A concrete right-hand side for the CG witness. -/
def exVecB : Fin 2 → ℚ := ![1, 2]

/-! # Theorems -/

/-! ## Helper lemmas -/

theorem lastOfAppendSingleton {α : Type} (l : List α) (a : α) :
    (l ++ [a]).getLast? = some a := by
  simp [List.getLast?_concat]

/-- Unfolding equation for `adaptDamping`, separating the two comparison
branches and the warning flag. -/
theorem adaptDamping_eq (damping f_0 f_step m_0 m_step : ℚ) :
    adaptDamping damping f_0 f_step m_0 m_step =
      (if fltQ (fdiv (f_step - f_0) (m_step - m_0)) (1/4) then damping * (3/2)
       else if fgtQ (fdiv (f_step - f_0) (m_step - m_0)) (3/4) then
         damping * (2/3)
       else damping,
       fltQ (fdiv (f_step - f_0) (m_step - m_0)) 0) := rfl

/-- Evaluation of `adaptDamping` when the denominator is nonzero: the
ratio is finite and the IEEE comparisons coincide with the rational
ones. -/
theorem adaptDamping_val (damping f_0 f_step m_0 m_step : ℚ)
    (hden : m_step - m_0 ≠ 0) :
    adaptDamping damping f_0 f_step m_0 m_step =
      (if (f_step - f_0) / (m_step - m_0) < 1/4 then damping * (3/2)
       else if 3/4 < (f_step - f_0) / (m_step - m_0) then damping * (2/3)
       else damping,
       decide ((f_step - f_0) / (m_step - m_0) < 0)) := by
  rw [adaptDamping_eq]
  have hrho : fdiv (f_step - f_0) (m_step - m_0) =
      FloatVal.val ((f_step - f_0) / (m_step - m_0)) := by
    simp [fdiv, hden]
  rw [hrho]
  simp only [fltQ, fgtQ, decide_eq_true_eq]

/-! ## C2: damping controller response -/

/-- C2: for every reduction ratio `rho = (f_step - f_0) / (m_step - m_0)`
computed by the damping controller with a nonzero denominator:
`rho < 0.25` multiplies the persisted damping by `3/2`; `rho > 0.75`
multiplies it by `2/3`; `0.25 ≤ rho ≤ 0.75` leaves it unchanged; and
`rho < 0` raises the non-fatal warning while the factor `3/2` is still
applied (`adaptDamping` is total, so the step completes). -/
theorem C2_damping_response (damping f_0 f_step m_0 m_step : ℚ)
    (hden : m_step - m_0 ≠ 0) :
    ((f_step - f_0) / (m_step - m_0) < 1/4 →
      (adaptDamping damping f_0 f_step m_0 m_step).1 = damping * (3/2)) ∧
    (3/4 < (f_step - f_0) / (m_step - m_0) →
      (adaptDamping damping f_0 f_step m_0 m_step).1 = damping * (2/3)) ∧
    (1/4 ≤ (f_step - f_0) / (m_step - m_0) ∧
        (f_step - f_0) / (m_step - m_0) ≤ 3/4 →
      (adaptDamping damping f_0 f_step m_0 m_step).1 = damping) ∧
    ((f_step - f_0) / (m_step - m_0) < 0 →
      (adaptDamping damping f_0 f_step m_0 m_step).2 = true ∧
      (adaptDamping damping f_0 f_step m_0 m_step).1 = damping * (3/2)) := by
  refine ⟨?_, ?_, ?_, ?_⟩
  · intro h
    rw [adaptDamping_val damping f_0 f_step m_0 m_step hden]
    rw [if_pos h]
  · intro h
    have h4 : ¬((f_step - f_0) / (m_step - m_0) < 1/4) := by linarith
    rw [adaptDamping_val damping f_0 f_step m_0 m_step hden]
    rw [if_neg h4, if_pos h]
  · intro h
    have h4 : ¬((f_step - f_0) / (m_step - m_0) < 1/4) := not_lt.2 h.1
    have h5 : ¬(3/4 < (f_step - f_0) / (m_step - m_0)) := not_lt.2 h.2
    rw [adaptDamping_val damping f_0 f_step m_0 m_step hden]
    rw [if_neg h4, if_neg h5]
  · intro h
    have h4 : (f_step - f_0) / (m_step - m_0) < 1/4 := by linarith
    rw [adaptDamping_val damping f_0 f_step m_0 m_step hden]
    exact ⟨decide_eq_true h, by rw [if_pos h4]⟩

/-- Witness for C2 at `damping = 1`, `f_0 = 0`, `f_step = 1`, `m_0 = 0`,
`m_step = 2` (so `rho = 1/2`). -/
theorem C2_damping_response_witness :
    ((2:ℚ) - 0 ≠ 0) ∧
    ((((1:ℚ) - 0) / ((2:ℚ) - 0) < 1/4 →
      (adaptDamping 1 0 1 0 2).1 = 1 * (3/2)) ∧
    (3/4 < ((1:ℚ) - 0) / ((2:ℚ) - 0) →
      (adaptDamping 1 0 1 0 2).1 = 1 * (2/3)) ∧
    (1/4 ≤ ((1:ℚ) - 0) / ((2:ℚ) - 0) ∧
        ((1:ℚ) - 0) / ((2:ℚ) - 0) ≤ 3/4 →
      (adaptDamping 1 0 1 0 2).1 = 1) ∧
    (((1:ℚ) - 0) / ((2:ℚ) - 0) < 0 →
      (adaptDamping 1 0 1 0 2).2 = true ∧
      (adaptDamping 1 0 1 0 2).1 = 1 * (3/2))) :=
  ⟨by norm_num, C2_damping_response 1 0 1 0 2 (by norm_num)⟩

/-! ## C3: zero denominator in the reduction ratio -/

/-- C3 counterexample: at `f_0 = 0`, `f_step = 1`, `m_0 = m_step = 0` the
quadratic-model denominator is zero, yet the damping update is not
skipped: the controller multiplies the damping by `2/3` (the claim says
the update is skipped). -/
theorem C3_zero_denominator_cex :
    (0:ℚ) - 0 = 0 ∧ (adaptDamping 1 0 1 0 0).1 ≠ 1 := by
  refine ⟨by norm_num, ?_⟩
  have h : (adaptDamping 1 0 1 0 0).1 = 1 * (2/3) := by
    rw [adaptDamping_eq]
    norm_num [fdiv, fltQ, fgtQ]
  rw [h]
  norm_num

/-- C3 amended: with a zero denominator the controller does not crash
(the torch-tensor division yields `nan` or a signed infinity, and
`adaptDamping` is total), but the update is only skipped when the
numerator is also zero (`rho = nan`); a positive numerator gives
`rho = +inf` and multiplies the damping by `2/3`, a negative numerator
gives `rho = -inf`, multiplies it by `3/2` and raises the warning.  The
step completes in all cases. -/
theorem C3_zero_denominator (damping f_0 f_step m_0 m_step : ℚ)
    (hden : m_step - m_0 = 0) :
    (f_step = f_0 →
      adaptDamping damping f_0 f_step m_0 m_step = (damping, false)) ∧
    (f_0 < f_step →
      adaptDamping damping f_0 f_step m_0 m_step = (damping * (2/3), false)) ∧
    (f_step < f_0 →
      adaptDamping damping f_0 f_step m_0 m_step = (damping * (3/2), true)) := by
  refine ⟨?_, ?_, ?_⟩
  · intro h
    have hnum : f_step - f_0 = 0 := sub_eq_zero.2 h
    have hrho : fdiv (f_step - f_0) (m_step - m_0) = FloatVal.nan := by
      simp [fdiv, hden, hnum]
    rw [adaptDamping_eq, hrho]
    simp [fltQ, fgtQ]
  · intro h
    have hnum : 0 < f_step - f_0 := sub_pos.2 h
    have hrho : fdiv (f_step - f_0) (m_step - m_0) = FloatVal.posInf := by
      simp [fdiv, hden, hnum.ne', hnum]
    rw [adaptDamping_eq, hrho]
    simp [fltQ, fgtQ]
  · intro h
    have hnum : f_step - f_0 < 0 := sub_neg.2 h
    have hrho : fdiv (f_step - f_0) (m_step - m_0) = FloatVal.negInf := by
      simp [fdiv, hden, hnum.ne, not_lt.2 hnum.le]
    rw [adaptDamping_eq, hrho]
    simp [fltQ, fgtQ]

/-- Witness for C3 at `damping = 1`, `f_0 = 0`, `f_step = 1`,
`m_0 = m_step = 5`. -/
theorem C3_zero_denominator_witness :
    ((5:ℚ) - 5 = 0) ∧
    (((1:ℚ) = 0 → adaptDamping 1 0 1 5 5 = (1, false)) ∧
    ((0:ℚ) < 1 → adaptDamping 1 0 1 5 5 = (1 * (2/3), false)) ∧
    ((1:ℚ) < 0 → adaptDamping 1 0 1 5 5 = (1 * (3/2), true))) :=
  ⟨by norm_num, C3_zero_denominator 1 0 1 5 5 (by norm_num)⟩

/-! ## C4: learning-rate validation at construction -/

/-- C4 counterexample: constructing the optimizer with `lr = 0` (all
other arguments at their defaults, one parameter group) succeeds — the
constructor only rejects `lr < 0.0` (optimizer.py line 68), so `lr = 0`
is not rejected as the claim states. -/
theorem C4_lr_zero_cex :
    cfgLrZero.lr = 0 ∧ exceptIsOk (hfInit 1 cfgLrZero 1) = true := by
  constructor
  · rfl
  · norm_num [hfInit, cfgLrZero, hfDefaults, cgCapInvalid, exceptIsOk]

/-- C4 amended: with the other constructor arguments valid, construction
succeeds exactly when `lr ≥ 0`: only a strictly negative learning rate
is rejected (eagerly, at construction); `lr = 0` is accepted. -/
theorem C4_lr_validation (cfg : HFConfig)
    (hcurv : cfg.curvature_opt = "hessian" ∨ cfg.curvature_opt = "ggn")
    (hdamp : 0 ≤ cfg.damping)
    (hcap : cgCapInvalid cfg.cg_max_iter = false) :
    exceptIsOk (hfInit 1 cfg 1) = true ↔ 0 ≤ cfg.lr := by
  have h1 : ¬(cfg.curvature_opt ≠ "hessian" ∧ cfg.curvature_opt ≠ "ggn") := by
    rcases hcurv with h | h <;> simp [h]
  have h2 : ¬(cfg.damping < 0) := not_lt.2 hdamp
  have h3 : ¬(cgCapInvalid cfg.cg_max_iter = true) := by simp [hcap]
  by_cases hlr : cfg.lr < 0
  · rw [hfInit, if_neg h1, if_neg h2, if_neg h3, if_pos hlr]
    simp [exceptIsOk, not_le.2 hlr]
  · rw [hfInit, if_neg h1, if_neg h2, if_neg h3, if_neg hlr,
      if_neg (by norm_num : ¬((1:ℕ) ≠ 1))]
    simp [exceptIsOk, not_lt.1 hlr]

/-- Witness for C4 at the default configuration (where `lr = 1`). -/
theorem C4_lr_validation_witness :
    (hfDefaults.curvature_opt = "hessian" ∨ hfDefaults.curvature_opt = "ggn") ∧
    (0:ℚ) ≤ hfDefaults.damping ∧
    cgCapInvalid hfDefaults.cg_max_iter = false ∧
    (exceptIsOk (hfInit 1 hfDefaults 1) = true ↔ 0 ≤ hfDefaults.lr) :=
  ⟨Or.inr rfl, by norm_num [hfDefaults], by norm_num [hfDefaults, cgCapInvalid],
   C4_lr_validation hfDefaults (Or.inr rfl) (by norm_num [hfDefaults])
     (by norm_num [hfDefaults, cgCapInvalid])⟩

/-! ## C5: default CG iteration cap -/

/-- C5 counterexample: the constructor default for `cg_max_iter` is
`250` (optimizer.py line 26), so for a system of dimension 3 the cap used
when the caller does not specify one is `250`, not the system
dimension. -/
theorem C5_cg_cap_cex :
    hfDefaults.cg_max_iter = some 250 ∧
    effectiveCgMaxIter hfDefaults.cg_max_iter 3 = 250 ∧ (250:ℤ) ≠ 3 := by
  refine ⟨rfl, ?_, by norm_num⟩
  norm_num [hfDefaults, effectiveCgMaxIter]

/-- C5 amended: when the caller does not specify a cap, the default is
the explicit value `250` (taken from the report), used regardless of the
system dimension; only an explicit `cg_max_iter = None` makes the CG
solver fall back to the dimension of the linear system. -/
theorem C5_cg_cap_default (dim : ℤ) :
    hfDefaults.cg_max_iter = some 250 ∧
    effectiveCgMaxIter hfDefaults.cg_max_iter dim = 250 ∧
    effectiveCgMaxIter none dim = dim := by
  refine ⟨rfl, ?_, rfl⟩
  norm_num [hfDefaults, effectiveCgMaxIter]

/-! ## C10: single parameter group -/

/-- C10: with otherwise valid configuration, constructing `HessianFree`
with more than one parameter group raises (the `len(self.param_groups)
!= 1` check, optimizer.py lines 81-84), while exactly one parameter group
is accepted. -/
theorem C10_param_groups (cfg : HFConfig) (g : ℕ)
    (hcurv : cfg.curvature_opt = "hessian" ∨ cfg.curvature_opt = "ggn")
    (hdamp : 0 ≤ cfg.damping)
    (hcap : cgCapInvalid cfg.cg_max_iter = false) (hlr : 0 ≤ cfg.lr) :
    (1 < g → exceptIsOk (hfInit 1 cfg g) = false) ∧
    (g = 1 → exceptIsOk (hfInit 1 cfg g) = true) := by
  have h1 : ¬(cfg.curvature_opt ≠ "hessian" ∧ cfg.curvature_opt ≠ "ggn") := by
    rcases hcurv with h | h <;> simp [h]
  have h2 : ¬(cfg.damping < 0) := not_lt.2 hdamp
  have h3 : ¬(cgCapInvalid cfg.cg_max_iter = true) := by simp [hcap]
  have h4 : ¬(cfg.lr < 0) := not_lt.2 hlr
  constructor
  · intro hg
    rw [hfInit, if_neg h1, if_neg h2, if_neg h3, if_neg h4,
      if_pos (by omega : g ≠ 1)]
    rfl
  · intro hg
    rw [hfInit, if_neg h1, if_neg h2, if_neg h3, if_neg h4,
      if_neg (by omega : ¬(g ≠ 1))]
    rfl

/-- Witness for C10 at the default configuration with two parameter
groups. -/
theorem C10_param_groups_witness :
    (hfDefaults.curvature_opt = "hessian" ∨ hfDefaults.curvature_opt = "ggn") ∧
    (0:ℚ) ≤ hfDefaults.damping ∧
    cgCapInvalid hfDefaults.cg_max_iter = false ∧ (0:ℚ) ≤ hfDefaults.lr ∧
    ((1 < 2 → exceptIsOk (hfInit 1 hfDefaults 2) = false) ∧
     (2 = 1 → exceptIsOk (hfInit 1 hfDefaults 2) = true)) :=
  ⟨Or.inr rfl, by norm_num [hfDefaults], by norm_num [hfDefaults, cgCapInvalid],
   by norm_num [hfDefaults],
   C10_param_groups hfDefaults 2 (Or.inr rfl) (by norm_num [hfDefaults])
     (by norm_num [hfDefaults, cgCapInvalid]) (by norm_num [hfDefaults])⟩

/-! ## C7: zero damping force-disables adaptation -/

/-- C7: constructing with `damping = 0` while adaptation is requested
succeeds, but the adaptation flag is forced off and the warning is
issued (optimizer.py lines 57-59); any step run on a state whose
adaptation flag is off never runs the damping controller, leaves the
damping unchanged and keeps the flag off (optimizer.py lines 201-207), so
the controller is never run on any later step either. -/
theorem C7_zero_damping_disables_adaptation (n : ℕ) (cfg : HFConfig)
    (hd : cfg.damping = 0) (ha : cfg.adapt_damping = true)
    (hcurv : cfg.curvature_opt = "hessian" ∨ cfg.curvature_opt = "ggn")
    (hcap : cgCapInvalid cfg.cg_max_iter = false) (hlr : 0 ≤ cfg.lr) :
    (∃ st : HFState n, hfInit n cfg 1 = Except.ok st ∧
      st.adapt_damping = false ∧ dampingZeroWarning ∈ st.warnMsgs) ∧
    (∀ (cgFun : ℚ → Option (Fin n → ℚ) → List (Fin n → ℚ) × List ℚ)
        (loss : (Fin n → ℚ) → ℚ) (grad params_vec : Fin n → ℚ)
        (s : HFState n), s.adapt_damping = false →
      (hfStep cgFun loss grad params_vec s).dampingControllerRan = false ∧
      (hfStep cgFun loss grad params_vec s).state.damping = s.damping ∧
      (hfStep cgFun loss grad params_vec s).state.adapt_damping = false) := by
  constructor
  · have h1 : ¬(cfg.curvature_opt ≠ "hessian" ∧ cfg.curvature_opt ≠ "ggn") := by
      rcases hcurv with h | h <;> simp [h]
    have h2 : ¬(cfg.damping < 0) := by rw [hd]; norm_num
    have h3 : ¬(cgCapInvalid cfg.cg_max_iter = true) := by simp [hcap]
    have h4 : ¬(cfg.lr < 0) := not_lt.2 hlr
    have heq : hfInit n cfg 1 = Except.ok
        { x0 := none
          damping := cfg.damping
          adapt_damping := false
          cg_decay_x0 := cfg.cg_decay_x0
          use_cg_backtracking := cfg.use_cg_backtracking
          lr := cfg.lr
          use_linesearch := cfg.use_linesearch
          warnMsgs := [dampingZeroWarning] } := by
      rw [hfInit, if_neg h1, if_neg h2, if_neg h3, if_neg h4,
        if_neg (by norm_num : ¬((1:ℕ) ≠ 1))]
      simp [hd, ha]
    exact ⟨_, heq, rfl, by simp⟩
  · intro cgFun loss grad params_vec s hs
    refine ⟨hs, ?_, ?_⟩ <;> simp [hfStep, hs]

/-- Witness for C7 at the default configuration with `damping = 0`. -/
theorem C7_zero_damping_witness :
    cfgDampZero.damping = 0 ∧ cfgDampZero.adapt_damping = true ∧
    (cfgDampZero.curvature_opt = "hessian" ∨
      cfgDampZero.curvature_opt = "ggn") ∧
    cgCapInvalid cfgDampZero.cg_max_iter = false ∧ (0:ℚ) ≤ cfgDampZero.lr ∧
    ((∃ st : HFState 1, hfInit 1 cfgDampZero 1 = Except.ok st ∧
        st.adapt_damping = false ∧ dampingZeroWarning ∈ st.warnMsgs) ∧
     (∀ (cgFun : ℚ → Option (Fin 1 → ℚ) → List (Fin 1 → ℚ) × List ℚ)
         (loss : (Fin 1 → ℚ) → ℚ) (grad params_vec : Fin 1 → ℚ)
         (s : HFState 1), s.adapt_damping = false →
       (hfStep cgFun loss grad params_vec s).dampingControllerRan = false ∧
       (hfStep cgFun loss grad params_vec s).state.damping = s.damping ∧
       (hfStep cgFun loss grad params_vec s).state.adapt_damping = false)) :=
  ⟨rfl, rfl, Or.inr rfl, by norm_num [cfgDampZero, hfDefaults, cgCapInvalid],
   by norm_num [cfgDampZero, hfDefaults],
   C7_zero_damping_disables_adaptation 1 cfgDampZero rfl rfl (Or.inr rfl)
     (by norm_num [cfgDampZero, hfDefaults, cgCapInvalid])
     (by norm_num [cfgDampZero, hfDefaults])⟩

/-! ## C1: parameter writes during a step -/

/-- C1 counterexample: a step with damping adaptation enabled (and
backtracking and line search disabled) performs three parameter writes,
and the second one — issued by the `tfunc` evaluation inside the damping
adaptation phase, before the final commit — moves the model parameters
away from their old value `0`.  This refutes the claim that no phase
before the final commit observably writes the model parameters. -/
theorem C1_early_writes_cex :
    (hfStep exCgFun exLoss 0 0 exState).writes.length = 3 ∧
    (hfStep exCgFun exLoss 0 0 exState).writes.getD 1 0 ≠ (0 : Fin 1 → ℚ) := by
  constructor
  · simp [hfStep, exState, exCgFun]
  · have h : (hfStep exCgFun exLoss 0 0 exState).writes.getD 1 0 =
        (0 : Fin 1 → ℚ) + exOne := by
      simp [hfStep, exState, exCgFun]
    rw [h]
    intro hcontra
    have h0 := congrFun hcontra 0
    simp [exOne] at h0

/-- C1 amended: the final parameter write of every step commits
`old parameters + multiplier × chosen step`, and that committed value is
what remains in the model when the step returns; phases that evaluate the
objective (damping adaptation, cg backtracking, line search) write the
parameters transiently through the `tfunc` helper before the commit, and
every such write precedes the commit, which is the last write. -/
theorem C1_commit_is_last_write {n : ℕ}
    (cgFun : ℚ → Option (Fin n → ℚ) → List (Fin n → ℚ) × List ℚ)
    (loss : (Fin n → ℚ) → ℚ) (grad params_vec : Fin n → ℚ) (s : HFState n) :
    (hfStep cgFun loss grad params_vec s).writes.getLast? =
      some ((hfStep cgFun loss grad params_vec s).finalParams) ∧
    (hfStep cgFun loss grad params_vec s).finalParams =
      params_vec + (hfStep cgFun loss grad params_vec s).lrUsed •
        (hfStep cgFun loss grad params_vec s).chosenStep := by
  constructor
  · simp [hfStep, List.getLast?_concat, List.getLast?_append]
  · rfl

/-! ## C6: warm-start persistence -/

/-- C6: after the cg run of a step, the persisted warm start equals
`cg_decay_x0 × final CG iterate` (the last entry of the trajectory,
optimizer.py line 183); the cg call of the step itself received the previously
persisted `x0` (line 173), and the cg call of the next step — whatever its
other inputs — receives exactly the vector persisted here. -/
theorem C6_warm_start {n : ℕ}
    (cgFun cgFun2 : ℚ → Option (Fin n → ℚ) → List (Fin n → ℚ) × List ℚ)
    (loss loss2 : (Fin n → ℚ) → ℚ)
    (grad grad2 params params2 : Fin n → ℚ)
    (s : HFState n) (lastIter : Fin n → ℚ)
    (hlast : (cgFun s.damping s.x0).1.getLast? = some lastIter) :
    (hfStep cgFun loss grad params s).cgX0Arg = s.x0 ∧
    (hfStep cgFun loss grad params s).state.x0 =
      some (s.cg_decay_x0 • lastIter) ∧
    (hfStep cgFun2 loss2 grad2 params2
        (hfStep cgFun loss grad params s).state).cgX0Arg =
      some (s.cg_decay_x0 • lastIter) := by
  refine ⟨rfl, ?_, ?_⟩
  · simp [hfStep, hlast]
  · simp [hfStep, hlast]

/-- Witness for C6 on the concrete trajectory ending at `exOne`. -/
theorem C6_warm_start_witness :
    (exCgFun exState.damping exState.x0).1.getLast? = some exOne ∧
    ((hfStep exCgFun exLoss 0 0 exState).cgX0Arg = exState.x0 ∧
     (hfStep exCgFun exLoss 0 0 exState).state.x0 =
       some (exState.cg_decay_x0 • exOne) ∧
     (hfStep exCgFun exLoss 0 0
         (hfStep exCgFun exLoss 0 0 exState).state).cgX0Arg =
       some (exState.cg_decay_x0 • exOne)) :=
  ⟨rfl, C6_warm_start exCgFun exCgFun exLoss exLoss 0 0 0 0 exState exOne rfl⟩

/-! ## C9: `get_preconditioner` returns `None` -/

/-- C9: for every preconditioner constructor, input bundle and damping,
the public `get_preconditioner` method returns `None`: the
result of the `diag_EF_preconditioner` call is discarded because the method
body has no return statement. -/
theorem C9_get_preconditioner_none (α β : Type) (f : β → ℚ → α) (inp : β)
    (damping : ℚ) : get_preconditioner f inp damping = none := rfl

/-! ## C8: quadratic-model consistency of CG checkpoints -/

theorem mulVec_dot_symm {n : ℕ} {A : Matrix (Fin n) (Fin n) ℚ}
    (hA : A.IsSymm) (x y : Fin n → ℚ) :
    x ⬝ᵥ A.mulVec y = y ⬝ᵥ A.mulVec x := by
  rw [Matrix.dotProduct_mulVec, ← Matrix.mulVec_transpose, hA.eq,
    Matrix.dotProduct_comm]

theorem cgInit_inv {n : ℕ} (A : Matrix (Fin n) (Fin n) ℚ) (b : Fin n → ℚ)
    (M : (Fin n → ℚ) → Fin n → ℚ) (x0 : Fin n → ℚ) :
    CGInv A b M (cgInit A b M x0) :=
  ⟨rfl, rfl, rfl⟩

theorem cgStepGuard_inv {n : ℕ} {A : Matrix (Fin n) (Fin n) ℚ}
    {b : Fin n → ℚ} {M : (Fin n → ℚ) → Fin n → ℚ} {s s' : CGState n}
    (hA : A.IsSymm) (hs : CGInv A b M s)
    (h : cgStepGuard A M s = some s') : CGInv A b M s' := by
  obtain ⟨hr, hm, hp⟩ := hs
  rw [cgStepGuard] at h
  split_ifs at h with h1 h2 h3
  injection h with h
  subst h
  have hprd : s.p ⬝ᵥ s.r = s.r ⬝ᵥ M s.r := by
    rw [hp, Matrix.dotProduct_comm]
  have hbp : s.p ⬝ᵥ b = b ⬝ᵥ s.p := Matrix.dotProduct_comm _ _
  have hpax : s.p ⬝ᵥ A.mulVec s.x = b ⬝ᵥ s.p - s.r ⬝ᵥ M s.r := by
    have h5 : s.p ⬝ᵥ s.r = s.p ⬝ᵥ b - s.p ⬝ᵥ A.mulVec s.x := by
      rw [hr, Matrix.dotProduct_sub]
    rw [hprd] at h5
    linarith [h5, hbp]
  have hpr0 : s.p ⬝ᵥ (s.r - cgAlpha A M s • A.mulVec s.p) = 0 := by
    rw [Matrix.dotProduct_sub, Matrix.dotProduct_smul, smul_eq_mul, hprd,
      cgAlpha]
    field_simp
  refine ⟨?_, ?_, ?_⟩
  · show s.r - cgAlpha A M s • A.mulVec s.p =
      b - A.mulVec (s.x + cgAlpha A M s • s.p)
    rw [Matrix.mulVec_add, Matrix.mulVec_smul, hr]
    abel
  · show s.m - cgAlpha A M s * (s.r ⬝ᵥ M s.r) / 2 =
      qval A b (s.x + cgAlpha A M s • s.p)
    rw [hm, qval, qval, Matrix.mulVec_add, Matrix.mulVec_smul,
      Matrix.dotProduct_add, Matrix.add_dotProduct, Matrix.add_dotProduct,
      Matrix.dotProduct_smul, Matrix.smul_dotProduct, Matrix.smul_dotProduct,
      Matrix.dotProduct_add, Matrix.dotProduct_smul,
      mulVec_dot_symm hA s.x s.p, hpax, cgAlpha]
    simp only [smul_eq_mul]
    field_simp
    ring
  · show (M (s.r - cgAlpha A M s • A.mulVec s.p) +
        ((s.r - cgAlpha A M s • A.mulVec s.p) ⬝ᵥ
            M (s.r - cgAlpha A M s • A.mulVec s.p) / (s.r ⬝ᵥ M s.r)) • s.p) ⬝ᵥ
          (s.r - cgAlpha A M s • A.mulVec s.p) =
        M (s.r - cgAlpha A M s • A.mulVec s.p) ⬝ᵥ
          (s.r - cgAlpha A M s • A.mulVec s.p)
    rw [Matrix.add_dotProduct, Matrix.smul_dotProduct, smul_eq_mul, hpr0,
      mul_zero, add_zero]

theorem cgRun_inv {n : ℕ} {A : Matrix (Fin n) (Fin n) ℚ} {b : Fin n → ℚ}
    {M : (Fin n → ℚ) → Fin n → ℚ} (hA : A.IsSymm) :
    ∀ (fuel : ℕ) (s : CGState n), CGInv A b M s →
      ∀ t ∈ cgRun A M fuel s, CGInv A b M t := by
  intro fuel
  induction fuel with
  | zero =>
    intro s hs t ht
    simp only [cgRun, List.mem_singleton] at ht
    subst ht
    exact hs
  | succ k ih =>
    intro s hs t ht
    rw [cgRun] at ht
    cases hstep : cgStepGuard A M s with
    | none =>
      rw [hstep] at ht
      simp only [List.mem_singleton] at ht
      subst ht
      exact hs
    | some s' =>
      rw [hstep] at ht
      simp only [List.mem_cons] at ht
      rcases ht with rfl | ht
      · exact hs
      · exact ih s' (cgStepGuard_inv hA hs hstep) t ht

theorem gridFilter_subset {α : Type} (keep : ℕ → Bool) :
    ∀ (i : ℕ) (l : List α) (a : α), a ∈ gridFilter keep i l → a ∈ l := by
  intro i l
  induction l generalizing i with
  | nil =>
    intro a ha
    simp only [gridFilter] at ha
    exact absurd ha (List.not_mem_nil a)
  | cons x xs ih =>
    intro a ha
    rw [gridFilter] at ha
    by_cases hk : keep i = true
    · rw [if_pos hk] at ha
      rcases List.mem_cons.1 ha with rfl | ha
      · exact List.mem_cons_self _ _
      · exact List.mem_cons_of_mem _ (ih (i + 1) a ha)
    · rw [if_neg hk] at ha
      exact List.mem_cons_of_mem _ (ih (i + 1) a ha)

/-- C8: for every checkpoint pair `(x_i, m_i)` stored in a CG trajectory,
`m_i = 0.5 * x_i ⬝ᵥ A x_i - b ⬝ᵥ x_i` for the (damped) system matrix `A`
and right-hand side `b` of that run — exactly, in the rational model —
even though the model value is maintained incrementally during CG without
an extra matrix-vector product (see `cgNext`). -/
theorem C8_model_value_invariant {n : ℕ} (A : Matrix (Fin n) (Fin n) ℚ)
    (b : Fin n → ℚ) (x0 : Option (Fin n → ℚ))
    (M : Option ((Fin n → ℚ) → Fin n → ℚ)) (maxIter : ℕ)
    (grid : Option (List ℕ)) (hA : A.IsSymm) :
    ∀ pr ∈ cgTrajectory A b x0 M maxIter grid, pr.2 = qval A b pr.1 := by
  intro pr hpr
  rw [cgTrajectory] at hpr
  have hmem : pr ∈ (cgStates A b x0 M maxIter).map (fun s => (s.x, s.m)) :=
    gridFilter_subset _ _ _ _ hpr
  rw [List.mem_map] at hmem
  obtain ⟨st, hst, rfl⟩ := hmem
  rw [cgStates] at hst
  have hinv :=
    cgRun_inv hA maxIter _ (cgInit_inv A b (M.getD id) (x0.getD 0)) st hst
  exact hinv.2.1

/-- Witness for C8 on the concrete symmetric system `exMatA`, `exVecB`. -/
theorem C8_model_value_invariant_witness :
    Matrix.IsSymm exMatA ∧
    ∀ pr ∈ cgTrajectory exMatA exVecB none none 5 none,
      pr.2 = qval exMatA exVecB pr.1 := by
  have hsym : exMatA.IsSymm :=
    Matrix.IsSymm.ext (by intro i j; fin_cases i <;> fin_cases j <;>
      simp [exMatA])
  exact ⟨hsym,
    C8_model_value_invariant exMatA exVecB none none 5 none hsym⟩
